import Mathlib

/-!
Verification of the flex layout engine (package `flex`, files `flex.go` and
`flex_test.go`).  The Go code is shallowly embedded below: the float64
arithmetic of the source is modelled with exact rationals, Go `int` with `ℤ`,
the dynamically typed `Node.LayoutData` field with an `Option`, and the two
Go run-time aborts of the base-size resolver with `Except.error`.  The
iterative flexible-length loop of CSS §9.7.4 is a `while` loop in the source;
it is embedded with an explicit fuel parameter, and divergence claims are
settled by exhibiting a fixpoint of the loop body that is not all-frozen.
-/

namespace Flex

/-- Type `ContainerDirection` from flex.go (`Row`, `RowReverse`, `Column`,
`ColumnReverse`). -/
inductive ContainerDirection where
  | Row
  | RowReverse
  | Column
  | ColumnReverse
deriving DecidableEq, Repr

/-- Type `ContainerWrap` from flex.go (`NoWrap`, `Wrap`, `WrapReverse`). -/
inductive ContainerWrap where
  | NoWrap
  | Wrap
  | WrapReverse
deriving DecidableEq, Repr

/-- Go `type Basis int8`: the constant `Auto` (= iota = 0). -/
def Auto : ℤ := 0

/-- Go `Basis` constant `Content` (= 1). -/
def Content : ℤ := 1

/-- Go `Basis` constant `Definite` (= 2). -/
def Definite : ℤ := 2

/-- Struct `LayoutData` from flex.go.  The Go zero value of each field is the
default, so a literal `LayoutData{Grow: 1}` is written `{ Grow := 1 }`.
`Shrink *float64` becomes an `Option`; the `Align` field is never read by
`Layout` and is omitted. -/
structure LayoutData where
  Grow : ℚ := 0
  Shrink : Option ℚ := none
  Basis : ℤ := 0
  BasisPx : ℤ := 0
  BreakAfter : Bool := false
deriving DecidableEq, Repr

/-- The part of `widget.Node` that `flexClass.Layout` reads for a child:
its measured size (an `image.Point`, here a pair of integers) and the
optional `LayoutData` attachment (the Go type assertion
`n.LayoutData.(LayoutData)` either yields a `LayoutData` or fails, which is
`Option`). -/
structure Node where
  MeasuredSize : ℤ × ℤ
  LayoutData : Option LayoutData := none
deriving DecidableEq, Repr

/-- Function `growFactor` from flex.go: the `Grow` field when layout data is
attached, else 0. -/
def growFactor (n : Node) : ℚ :=
  match n.LayoutData with
  | some d => d.Grow
  | none => 0

/-- Function `shrinkFactor` from flex.go: the dereferenced `Shrink` field when layout
data is attached and the pointer is non-nil, else the default 1. -/
def shrinkFactor (n : Node) : ℚ :=
  match n.LayoutData with
  | some d =>
    match d.Shrink with
    | some s => s
    | none => 1
  | none => 1

/-- Method `flexClass.mainSize` from flex.go: project a point onto the main axis
(X for `Row`/`RowReverse`, Y for `Column`/`ColumnReverse`).  The direction
is an argument here instead of a field of the receiver. -/
def mainSize (dir : ContainerDirection) (p : ℤ × ℤ) : ℤ :=
  match dir with
  | .Row | .RowReverse => p.1
  | .Column | .ColumnReverse => p.2

/-- Method `flexClass.flexBaseSize` from flex.go (§9.2.3).  The two `panic` calls of
the source (`Content` basis, unknown basis) are `Except.error`; the Go type
assertion in the `Definite` arm cannot fail because an absent descriptor
defaults the basis to `Auto`. -/
def flexBaseSize (dir : ContainerDirection) (n : Node) : Except String ℤ :=
  let basis : ℤ :=
    match n.LayoutData with
    | some d => d.Basis
    | none => Auto
  if basis = Definite then
    match n.LayoutData with
    | some d => Except.ok d.BasisPx
    | none => Except.error "interface conversion failed"
  else if basis = Content then
    Except.error "flex-basis: content not supported"
  else if basis = Auto then
    Except.ok (mainSize dir n.MeasuredSize)
  else
    Except.error "unknown flex-basis"

/-- Struct `element` from flex.go.  The Go zero values (`frozen = false`,
`unclamped = 0`, `mainSize = 0`) are the defaults, matching the state of a
freshly built element in `Layout`.  The unused `crossSize` field is
omitted. -/
structure element where
  n : Node
  flexBaseSize : ℚ
  frozen : Bool := false
  unclamped : ℚ := 0
  mainSize : ℚ := 0
deriving DecidableEq, Repr

/-- Struct `flexLine` from flex.go: a running main-size total plus the children of
the line.  The children are held by value here instead of by pointer; the
resolution stage below transforms the list in place of mutating through the
pointers. -/
structure flexLine where
  mainSize : ℚ := 0
  child : List element := []
deriving DecidableEq, Repr

instance : Inhabited element := ⟨{ n := { MeasuredSize := (0, 0) }, flexBaseSize := 0 }⟩

instance : Inhabited flexLine := ⟨{}⟩

/-- The `BreakAfter` test of the partition loop: Go
`d, ok := child.n.LayoutData.(LayoutData); ok && d.BreakAfter`. -/
def breakAfter (n : Node) : Bool :=
  match n.LayoutData with
  | some d => d.BreakAfter
  | none => false

/-- The element construction at the top of `Layout`: one element per child,
carrying the child and its flex base size (an error of `flexBaseSize`
aborts the whole construction, as the Go run-time abort would). -/
def mkElements (dir : ContainerDirection) : List Node → Except String (List element)
  | [] => Except.ok []
  | c :: rest =>
    match flexBaseSize dir c with
    | Except.error e => Except.error e
    | Except.ok fbs =>
      match mkElements dir rest with
      | Except.error e => Except.error e
      | Except.ok es => Except.ok ({ n := c, flexBaseSize := (fbs : ℚ) } :: es)

/-- Stage §9.3.5 of `Layout`: collect children into flex lines.  `NoWrap` builds a
single line of all children, leaving `mainSize` at its zero value exactly as
the source does.  Otherwise the loop closes the current line when its
running total is positive and would be pushed above the container size, adds
the child, and closes the line after a `BreakAfter` child; the line left
open when the loop ends is not appended (again exactly as the source).
`WrapReverse` finally reverses the list of lines. -/
def collectLines (wrap : ContainerWrap) (containerMainSize : ℚ)
    (children : List element) : List flexLine :=
  match wrap with
  | .NoWrap => [{ child := children }]
  | _ =>
    let f := fun (acc : List flexLine × flexLine) (child : element) =>
      let lines := acc.1
      let line := acc.2
      let closed : List flexLine × flexLine :=
        if line.mainSize > 0 ∧ line.mainSize + child.flexBaseSize > containerMainSize then
          (lines ++ [line], {})
        else
          (lines, line)
      let line : flexLine :=
        { mainSize := closed.2.mainSize + child.flexBaseSize,
          child := closed.2.child ++ [child] }
      if breakAfter child.n then (closed.1 ++ [line], {}) else (closed.1, line)
    let r := children.foldl f ([], {})
    if wrap = .WrapReverse then r.1.reverse else r.1

/-- Step §9.7.1 of `Layout`: `grow := line.mainSize < containerMainSize`. -/
def lineGrow (containerMainSize : ℚ) (line : flexLine) : Bool :=
  decide (line.mainSize < containerMainSize)

/-- Step §9.7.2 of `Layout`: freeze inflexible children at their measured main
size.  `child.flexBaseSize` is used where the source recomputes
`k.flexBaseSize(child.n)`; the two agree because the source stored exactly
that value in the element. -/
def freezeInflexible (dir : ContainerDirection) (grow : Bool) (child : element) : element :=
  let ms : ℤ := mainSize dir child.n.MeasuredSize
  if grow then
    if growFactor child.n = 0 ∨ child.flexBaseSize > (ms : ℚ) then
      { child with frozen := true, mainSize := (ms : ℚ) }
    else child
  else
    if shrinkFactor child.n = 0 ∨ child.flexBaseSize < (ms : ℚ) then
      { child with frozen := true, mainSize := (ms : ℚ) }
    else child

/-- Step §9.7.3 of `Layout`: initial free space, the container main size minus
frozen main sizes and unfrozen flex base sizes. -/
def initFreeSpaceOf (containerMainSize : ℚ) (cs : List element) : ℚ :=
  cs.foldl
    (fun acc child =>
      if child.frozen then acc - child.mainSize else acc - child.flexBaseSize)
    containerMainSize

/-- The all-frozen test opening each iteration of the §9.7.4 loop. -/
def allFrozen (cs : List element) : Bool :=
  cs.all (fun c => c.frozen)

/-- The remaining-free-space and unfrozen-flex-factor computation of one
§9.7.4 iteration: one pass subtracting frozen main sizes and unfrozen base
sizes from the container size while summing the grow (or shrink) factors of
the unfrozen children. -/
def remFreeAndFactor (grow : Bool) (containerMainSize : ℚ) (cs : List element) : ℚ × ℚ :=
  cs.foldl
    (fun acc child =>
      if child.frozen then (acc.1 - child.mainSize, acc.2)
      else
        (acc.1 - child.flexBaseSize,
         acc.2 + (if grow then growFactor child.n else shrinkFactor child.n)))
    (containerMainSize, 0)

/-- The fractional-flex-factor adjustment of §9.7.4: when the factor sum is
below 1, replace the remaining free space by `initFreeSpace * factor` if
that product is smaller in magnitude. -/
def adjustRemFree (initFreeSpace remFreeSpace unfrozenFlexFactor : ℚ) : ℚ :=
  if unfrozenFlexFactor < 1 then
    let p := initFreeSpace * unfrozenFlexFactor
    if |p| < |remFreeSpace| then p else remFreeSpace
  else remFreeSpace

/-- Growing-mode distribution of one §9.7.4 iteration: each unfrozen child
gets `flexBaseSize + (growFactor / unfrozenFlexFactor) * remFreeSpace`. -/
def distributeGrow (remFreeSpace unfrozenFlexFactor : ℚ) (cs : List element) : List element :=
  cs.map (fun child =>
    if child.frozen then child
    else
      { child with
        mainSize := child.flexBaseSize + growFactor child.n / unfrozenFlexFactor * remFreeSpace })

/-- Shrinking-mode distribution of one §9.7.4 iteration: a first pass sums
the scaled shrink factors (`flexBaseSize * shrinkFactor`) of the unfrozen
children, a second pass sets each unfrozen child to
`flexBaseSize - (scaled / sum) * remFreeSpace`.  (The bare
`math.Abs(float64(remFreeSpace))` statement of the source discards its
result and is not modelled.) -/
def distributeShrink (remFreeSpace : ℚ) (cs : List element) : List element :=
  let sumScaledShrinkFactor : ℚ :=
    cs.foldl
      (fun acc child =>
        if child.frozen then acc
        else acc + child.flexBaseSize * shrinkFactor child.n)
      0
  cs.map (fun child =>
    if child.frozen then child
    else
      { child with
        mainSize := child.flexBaseSize -
          child.flexBaseSize * shrinkFactor child.n / sumScaledShrinkFactor * remFreeSpace })

/-- The distribution step of §9.7.4, guarded by `remFreeSpace != 0`. -/
def distribute (grow : Bool) (remFreeSpace unfrozenFlexFactor : ℚ)
    (cs : List element) : List element :=
  if remFreeSpace ≠ 0 then
    if grow then distributeGrow remFreeSpace unfrozenFlexFactor cs
    else distributeShrink remFreeSpace cs
  else cs

/-- The min/max violation fix of §9.7.4: every unfrozen child records its
unclamped size and is clamped to the zero lower bound. -/
def clampViolations (cs : List element) : List element :=
  cs.map (fun child =>
    if child.frozen then child
    else
      let child := { child with unclamped := child.mainSize }
      if child.mainSize < 0 then { child with mainSize := 0 } else child)

/-- The clamp-difference sum of the freeze-over-flexed step: the source sums
`child.mainSize - child.unclamped` over all children of the line (frozen
ones included). -/
def sumClampDiff (cs : List element) : ℚ :=
  cs.foldl (fun acc child => acc + (child.mainSize - child.unclamped)) 0

/-- The freeze-over-flexed step of §9.7.4: on a zero clamp-difference sum
freeze every child, on a positive sum freeze the children clamped upward,
on a negative sum freeze the children clamped downward. -/
def freezeOverFlexed (cs : List element) : List element :=
  let s := sumClampDiff cs
  if s = 0 then
    cs.map (fun child => { child with frozen := true })
  else if s > 0 then
    cs.map (fun child =>
      if child.mainSize > child.unclamped then { child with frozen := true } else child)
  else
    cs.map (fun child =>
      if child.mainSize < child.unclamped then { child with frozen := true } else child)

/-- One full iteration of the §9.7.4 loop body: remaining free space and
factor sum, the below-1 adjustment, distribution, clamping, and the
freeze-over-flexed step. -/
def flexStep (grow : Bool) (containerMainSize initFreeSpace : ℚ)
    (cs : List element) : List element :=
  let rf := remFreeAndFactor grow containerMainSize cs
  let remFreeSpace := adjustRemFree initFreeSpace rf.1 rf.2
  freezeOverFlexed (clampViolations (distribute grow remFreeSpace rf.2 cs))

/-- The §9.7.4 `for` loop with explicit fuel: stop with the current state as
soon as every child is frozen, otherwise run one `flexStep`; `none` when the
fuel is exhausted before the loop exits. -/
def runLoop (grow : Bool) (containerMainSize initFreeSpace : ℚ) :
    ℕ → List element → Option (List element)
  | 0, _ => none
  | fuel + 1, cs =>
    if allFrozen cs then some cs
    else runLoop grow containerMainSize initFreeSpace fuel
      (flexStep grow containerMainSize initFreeSpace cs)

/-- Go `int(x)` conversion of a float64, truncation toward zero, on the
rational model. -/
def goInt (q : ℚ) : ℤ :=
  Int.tdiv q.num (q.den : ℤ)

/-- Step §9.7.5 of `Layout`: walk the children of a line accumulating an offset
starting at 0; each child gets the main-axis interval
`[off, off + int(mainSize))` and the offset advances to its end. -/
def setMainSizes (cs : List element) : List (ℤ × ℤ) :=
  (cs.foldl
    (fun (acc : List (ℤ × ℤ) × ℤ) child =>
      let e := acc.2 + goInt child.mainSize
      (acc.1 ++ [(acc.2, e)], e))
    ([], 0)).1

/-- Stages §9.3.6 and §9.7 for one line: the grow decision, the initial freeze pass,
the initial free space, and the fueled loop. -/
def resolveLine (dir : ContainerDirection) (containerMainSize : ℚ) (fuel : ℕ)
    (line : flexLine) : Option (List element) :=
  let grow := lineGrow containerMainSize line
  let cs := line.child.map (freezeInflexible dir grow)
  runLoop grow containerMainSize (initFreeSpaceOf containerMainSize cs) fuel cs

/-- Resolution plus positioning for one line; a loop that does not exit
within the fuel is a divergence of the source and is reported as an
error. -/
def layoutLine (dir : ContainerDirection) (containerMainSize : ℚ) (fuel : ℕ)
    (line : flexLine) : Except String (List (ℤ × ℤ)) :=
  match resolveLine dir containerMainSize fuel line with
  | some cs => Except.ok (setMainSizes cs)
  | none => Except.error "flex loop failed to converge"

/-- The per-line `for` of §9.3.6: resolve and position each line in order,
an error aborting the walk. -/
def layoutLines (dir : ContainerDirection) (containerMainSize : ℚ) (fuel : ℕ) :
    List flexLine → Except String (List (List (ℤ × ℤ)))
  | [] => Except.ok []
  | line :: rest =>
    match layoutLine dir containerMainSize fuel line with
    | Except.error e => Except.error e
    | Except.ok rects =>
      match layoutLines dir containerMainSize fuel rest with
      | Except.error e => Except.error e
      | Except.ok rs => Except.ok (rects :: rs)

/-- Method `flexClass.Layout` from flex.go: build the elements, collect the lines,
and resolve and position each line in order.  The result is, per line in
order, the main-axis interval of each of its children in order. -/
def Layout (dir : ContainerDirection) (wrap : ContainerWrap) (size : ℤ × ℤ)
    (fuel : ℕ) (childNodes : List Node) : Except String (List (List (ℤ × ℤ))) :=
  match mkElements dir childNodes with
  | Except.error e => Except.error e
  | Except.ok children =>
    let containerMainSize : ℚ := ((mainSize dir size : ℤ) : ℚ)
    layoutLines dir containerMainSize fuel (collectLines wrap containerMainSize children)

/-! ## Specification-side definitions

These definitions follow the wording of the specification (not the source)
and exist only to be compared with the embedded code. -/

/-- The total flex base size of a list of children (the "sum of
flex-base-sizes in line" of the specification). -/
def sumBases (cs : List element) : ℚ :=
  (cs.map (fun c => c.flexBaseSize)).sum

/-- The clamp-difference sum as the specification words it: over the
unfrozen children only. -/
def sumUnfrozenClampDiff (cs : List element) : ℚ :=
  ((cs.filter (fun c => !c.frozen)).map (fun c => c.mainSize - c.unclamped)).sum

/-- The "sum of unfrozen scaled shrink factors" of the specification, a
scaled shrink factor being flex base size times shrink factor. -/
def scaledShrinkSum (cs : List element) : ℚ :=
  ((cs.filter (fun c => !c.frozen)).map (fun c => c.flexBaseSize * shrinkFactor c.n)).sum

/-- Contiguous main-axis intervals starting at `off`: each child occupies
`[off, off + size)` and the next child starts where the previous one
ended (the no-gaps no-overlaps placement of the specification). -/
def contiguousFrom (off : ℤ) : List ℤ → List (ℤ × ℤ)
  | [] => []
  | s :: rest => (off, off + s) :: contiguousFrom (off + s) rest

/-- The main-axis projection as the claim words it: X for `Row` and
`RowReverse`, Y for `Column` and `ColumnReverse`. -/
def mainAxisSpec (dir : ContainerDirection) (p : ℤ × ℤ) : ℤ :=
  match dir with
  | .Row | .RowReverse => p.1
  | .Column | .ColumnReverse => p.2

/-- The flex-base-size resolver as the claim words it: absent descriptor or
`Auto` basis gives the measured size projected onto the main axis,
`Definite` gives `BasisPx`, and `Content` or any unknown basis value yields
no result (the fatal configuration error). -/
def flexBaseSizeSpec (dir : ContainerDirection) (n : Node) : Option ℤ :=
  match n.LayoutData with
  | none => some (mainAxisSpec dir n.MeasuredSize)
  | some d =>
    if d.Basis = Auto then some (mainAxisSpec dir n.MeasuredSize)
    else if d.Basis = Definite then some d.BasisPx
    else if d.Basis = Content then none
    else none

/-! ## Concrete inputs

The children of the third entry of `layoutTests` in flex_test.go:
container size (300, 100), measured sizes {50, 100, 100}, layout data
`{}`, `{Grow: 1}`, `{Grow: 1}`. -/

/-- Test child with measured size 50 and an empty `LayoutData{}`. -/
def nTest50 : Node := { MeasuredSize := (50, 50), LayoutData := some {} }

/-- Test child with measured size 100 and `LayoutData{Grow: 1}`. -/
def nTest100 : Node := { MeasuredSize := (100, 100), LayoutData := some { Grow := 1 } }

/-- The elements `Layout` builds for the test children. -/
def esTest : List element :=
  [{ n := nTest50, flexBaseSize := 50 },
   { n := nTest100, flexBaseSize := 100 },
   { n := nTest100, flexBaseSize := 100 }]

/-- The single (`NoWrap`) flex line of the test children; `mainSize` is 0
because the `NoWrap` arm of §9.3.5 never accumulates it. -/
def lineTest : flexLine := { mainSize := 0, child := esTest }

/-- The state of the test line after the §9.7.2 initial freeze: the first
child is frozen at its measured 50 (grow factor 0), the other two are
unfrozen. -/
def csTestInit : List element :=
  [{ n := nTest50, flexBaseSize := 50, frozen := true, mainSize := 50 },
   { n := nTest100, flexBaseSize := 100 },
   { n := nTest100, flexBaseSize := 100 }]

/-- The state of the test line after one iteration of the §9.7.4 loop: the
two growers received 25 each (125 = 100 + (1/2)·50) and recorded the same
unclamped value; the frozen child still carries its stale zero
`unclamped`. -/
def csTestFix : List element :=
  [{ n := nTest50, flexBaseSize := 50, frozen := true, mainSize := 50 },
   { n := nTest100, flexBaseSize := 100, unclamped := 125, mainSize := 125 },
   { n := nTest100, flexBaseSize := 100, unclamped := 125, mainSize := 125 }]

/-- Sanity check: the first entry of `layoutTests` (three children of
measured size 100 in a 350-wide `NoWrap` container, no layout data) lays
out as the test expects. -/
theorem layout_matches_first_test :
    Layout .Row .NoWrap (350, 100) 2
      [{ MeasuredSize := (100, 100) }, { MeasuredSize := (100, 100) },
       { MeasuredSize := (100, 100) }] =
      Except.ok [[(0, 100), (100, 200), (200, 300)]] := by
  norm_num [Layout, mkElements, flexBaseSize, Auto, Content, Definite, mainSize,
    collectLines, layoutLines, layoutLine, resolveLine, lineGrow, freezeInflexible,
    growFactor, shrinkFactor, initFreeSpaceOf, runLoop, allFrozen, setMainSizes, goInt]

/-! ## C1 -/

/-- A single child of flex base size 50 in a `Wrap` container of main
extent 100. -/
def eWrap50 : element := { n := { MeasuredSize := (50, 50) }, flexBaseSize := 50 }

/-- C1: refuted on the code.  In `Wrap` mode the §9.3.5 loop only appends
the current line on an overflow break or a forced break, so the line still
open when the children run out is dropped: a lone child that fits in the
container appears in no emitted line at all, although the claim requires
every child to appear in exactly one line. -/
theorem wrap_partition_drops_trailing_line :
    collectLines .Wrap 100 [eWrap50] = [] := by
  norm_num [collectLines, breakAfter, eWrap50]

/-! ## C2 -/

/-- A child of flex base size 80 (no layout data). -/
def e80 : element := { n := { MeasuredSize := (80, 80) }, flexBaseSize := 80 }

/-- C2: refuted on the code.  The `NoWrap` arm of §9.3.5 never fills the
`mainSize` field of the single line, so §9.7.1 compares 0 (not the sum of
flex base sizes) against the container size: a line whose bases sum to 160
in a container of extent 100 is still resolved in growing mode, although
the claim requires shrinking mode whenever the sum is not below the
container extent. -/
theorem nowrap_line_grow_ignores_base_sum :
    collectLines .NoWrap 100 [e80, e80] = [{ mainSize := 0, child := [e80, e80] }] ∧
    sumBases [e80, e80] = 160 ∧
    lineGrow 100 { mainSize := 0, child := [e80, e80] } = true := by
  refine ⟨by norm_num [collectLines], by norm_num [sumBases, e80], ?_⟩
  norm_num [lineGrow]

/-! ## The divergence of the §9.7.4 loop on the test input (C3, C4, C5)

On the third `layoutTests` entry the loop reaches the state `csTestFix`
after one iteration, and `csTestFix` is a fixpoint of the loop body that is
not all-frozen: the frozen first child contributes its stale
`mainSize - unclamped = 50` to the clamp-difference sum, the sum therefore
stays positive, and the positive branch freezes no unfrozen child. -/

lemma freezeInflexible_esTest :
    esTest.map (freezeInflexible .Row true) = csTestInit := by
  norm_num [esTest, csTestInit, freezeInflexible, growFactor, mainSize, nTest50, nTest100]

lemma initFreeSpaceOf_csTestInit : initFreeSpaceOf 300 csTestInit = 50 := by
  norm_num [initFreeSpaceOf, csTestInit, nTest50, nTest100]

lemma flexStep_csTestInit : flexStep true 300 50 csTestInit = csTestFix := by
  norm_num [flexStep, remFreeAndFactor, adjustRemFree, distribute, distributeGrow,
    clampViolations, freezeOverFlexed, sumClampDiff, growFactor,
    csTestInit, csTestFix, nTest50, nTest100]

lemma flexStep_csTestFix : flexStep true 300 50 csTestFix = csTestFix := by
  norm_num [flexStep, remFreeAndFactor, adjustRemFree, distribute, distributeGrow,
    clampViolations, freezeOverFlexed, sumClampDiff, growFactor,
    csTestFix, nTest50, nTest100]

lemma allFrozen_csTestFix : allFrozen csTestFix = false := by
  norm_num [allFrozen, csTestFix]

lemma allFrozen_csTestInit : allFrozen csTestInit = false := by
  norm_num [allFrozen, csTestInit]

lemma runLoop_csTestFix (fuel : ℕ) :
    runLoop true 300 50 fuel csTestFix = none := by
  induction fuel with
  | zero => rfl
  | succ n ih =>
    rw [runLoop, allFrozen_csTestFix]
    simpa [flexStep_csTestFix] using ih

lemma runLoop_csTestInit (fuel : ℕ) :
    runLoop true 300 50 fuel csTestInit = none := by
  cases fuel with
  | zero => rfl
  | succ n =>
    rw [runLoop, allFrozen_csTestInit]
    simpa [flexStep_csTestInit] using runLoop_csTestFix n

lemma resolveLine_lineTest (fuel : ℕ) :
    resolveLine .Row 300 fuel { mainSize := 0, child := esTest } = none := by
  have hg : lineGrow 300 { mainSize := 0, child := esTest } = true := by
    norm_num [lineGrow]
  simp only [resolveLine, hg, freezeInflexible_esTest, initFreeSpaceOf_csTestInit]
  exact runLoop_csTestInit fuel

/-! ## C3 -/

/-- C3: refuted on the code.  On the line the code itself builds for the
third `layoutTests` entry (container main extent 300, bases {50, 100, 100},
grow factors {0, 1, 1}) the §9.7.4 loop never exits: whatever the fuel, the
resolution does not finish, although the claim promises termination within
at most child-count iterations.  (`flexStep_csTestFix` exhibits the
non-all-frozen fixpoint that the loop reaches after one iteration.) -/
theorem flex_loop_never_terminates_on_grow_line (fuel : ℕ) :
    resolveLine .Row 300 fuel lineTest = none :=
  resolveLine_lineTest fuel

/-- The fixpoint evidence for C3 restated on the reached state: one more
iteration of the loop body leaves `csTestFix` unchanged, yet not all of its
children are frozen. -/
theorem flex_loop_fixpoint_not_all_frozen :
    flexStep true 300 50 csTestFix = csTestFix ∧ allFrozen csTestFix = false :=
  ⟨flexStep_csTestFix, allFrozen_csTestFix⟩

/-! ## C4 -/

/-- C4: refuted on the code.  In the loop state reached after one iteration
on the test line, the clamp-difference sum of the code is 50 (it sums over
all children, and the initially frozen child contributes its stale
`mainSize - unclamped = 50 - 0`), while the sum over the unfrozen children
alone is 0; the claim says that on a zero sum every unfrozen child is
frozen, but the code takes the positive branch and freezes nobody new,
leaving the state unchanged. -/
theorem freeze_decision_counts_frozen_children :
    sumClampDiff csTestFix = 50 ∧
    sumUnfrozenClampDiff csTestFix = 0 ∧
    freezeOverFlexed csTestFix = csTestFix := by
  refine ⟨by norm_num [sumClampDiff, csTestFix], by norm_num [sumUnfrozenClampDiff, csTestFix], ?_⟩
  norm_num [freezeOverFlexed, sumClampDiff, csTestFix]

/-! ## C5 -/

/-- C5: refuted on the code.  On the third `layoutTests` entry (Row,
NoWrap, container (300, 100), measured {50, 100, 100}, descriptors
`{}`, `{Grow: 1}`, `{Grow: 1}`) the layout never terminates — for every
fuel the §9.7.4 loop is still running — so the rectangles
[0,50), [50,175), [175,300) that the claim (and the repository test)
expects are never produced. -/
theorem layout_diverges_on_proportional_growth_test (fuel : ℕ) :
    Layout .Row .NoWrap (300, 100) fuel [nTest50, nTest100, nTest100] =
      Except.error "flex loop failed to converge" := by
  have hmk : mkElements .Row [nTest50, nTest100, nTest100] = Except.ok esTest := by
    norm_num [mkElements, flexBaseSize, Auto, Content, Definite, mainSize,
      nTest50, nTest100, esTest]
  have hcl : collectLines .NoWrap 300 esTest = [lineTest] := by
    norm_num [collectLines, lineTest]
  have hmain : ((mainSize .Row (300, 100) : ℤ) : ℚ) = 300 := by
    norm_num [mainSize]
  rw [Layout, hmk]
  simp only [hmain, hcl, layoutLines, layoutLine, resolveLine_lineTest fuel]

/-! ## C8 -/

lemma mainAxisSpec_eq (dir : ContainerDirection) (p : ℤ × ℤ) :
    mainAxisSpec dir p = mainSize dir p := by
  cases dir <;> rfl

/-- C8: confirmed.  For every direction and child, the flex base size
resolver of the code agrees with the claim: an absent descriptor or an
`Auto` basis yields the measured size projected onto the main axis (X for
`Row`/`RowReverse`, Y for `Column`/`ColumnReverse`), a `Definite` basis
yields `BasisPx`, and a `Content` or unknown basis aborts the call without
returning a result (`toOption` is `none` exactly on the two fatal
branches). -/
theorem flexBaseSize_matches_spec (dir : ContainerDirection) (n : Node) :
    (flexBaseSize dir n).toOption = flexBaseSizeSpec dir n := by
  rcases n with ⟨ms, ld⟩
  cases ld with
  | none =>
    simp [flexBaseSize, flexBaseSizeSpec, Auto, Content, Definite,
      mainAxisSpec_eq, Except.toOption]
  | some d =>
    by_cases hD : d.Basis = 2
    · simp [flexBaseSize, flexBaseSizeSpec, hD, Auto, Content, Definite,
        Except.toOption]
    · by_cases hC : d.Basis = 1
      · simp [flexBaseSize, flexBaseSizeSpec, hD, hC, Auto, Content, Definite,
          Except.toOption]
      · by_cases hA : d.Basis = 0
        · simp [flexBaseSize, flexBaseSizeSpec, hD, hC, hA, Auto, Content, Definite,
            mainAxisSpec_eq, Except.toOption]
        · simp [flexBaseSize, flexBaseSizeSpec, hD, hC, hA, Auto, Content, Definite,
            Except.toOption]

/-! ## C7 -/

lemma foldl_scaledShrink (cs : List element) (a : ℚ) :
    cs.foldl
      (fun acc child =>
        if child.frozen then acc
        else acc + child.flexBaseSize * shrinkFactor child.n) a
      = a + scaledShrinkSum cs := by
  induction cs generalizing a with
  | nil => simp [scaledShrinkSum]
  | cons c cs ih =>
    by_cases h : c.frozen
    · simp [List.foldl_cons, h, ih, scaledShrinkSum, List.filter_cons]
    · simp only [List.foldl_cons, h, if_neg, ih, scaledShrinkSum, List.filter_cons]
      simp [h]
      ring

/-- C7: confirmed.  Whenever the remaining free space is nonzero, the
shrinking-mode distribution sets every unfrozen child of the line to
`flexBaseSize - (flexBaseSize * shrinkFactor / sum of unfrozen scaled
shrink factors) * remFreeSpace`, the scaled shrink factor of a child being
its flex base size times its shrink factor. -/
theorem shrink_distribution_formula (remFreeSpace unfrozenFlexFactor : ℚ)
    (cs : List element) (i : ℕ)
    (hrf : remFreeSpace ≠ 0)
    (hlen : i < cs.length)
    (hu : (cs.getD i default).frozen = false) :
    ((distribute false remFreeSpace unfrozenFlexFactor cs).getD i default).mainSize =
      (cs.getD i default).flexBaseSize -
        (cs.getD i default).flexBaseSize * shrinkFactor (cs.getD i default).n
          / scaledShrinkSum cs * remFreeSpace := by
  have hd : distribute false remFreeSpace unfrozenFlexFactor cs =
      distributeShrink remFreeSpace cs := by
    simp [distribute, hrf]
  rw [hd, distributeShrink, foldl_scaledShrink cs 0, zero_add]
  have hlen2 : i < (cs.map (fun child =>
      if child.frozen then child
      else
        { child with
          mainSize := child.flexBaseSize -
            child.flexBaseSize * shrinkFactor child.n / scaledShrinkSum cs
              * remFreeSpace })).length := by
    simpa using hlen
  rw [List.getD_eq_getElem _ _ hlen2, List.getD_eq_getElem _ _ hlen] at *
  rw [List.getElem_map]
  simp [hu]

/-- A single unfrozen child of flex base size 10 and default shrink
factor. -/
def eShrink10 : element := { n := { MeasuredSize := (10, 10) }, flexBaseSize := 10 }

/-- Witness for C7 at remaining free space -5 on a one-child line. -/
theorem shrink_distribution_formula_witness :
    ((-5 : ℚ) ≠ 0) ∧ (0 < [eShrink10].length) ∧
    (([eShrink10].getD 0 default).frozen = false) ∧
    ((distribute false (-5) 1 [eShrink10]).getD 0 default).mainSize =
      ([eShrink10].getD 0 default).flexBaseSize -
        ([eShrink10].getD 0 default).flexBaseSize
          * shrinkFactor ([eShrink10].getD 0 default).n
          / scaledShrinkSum [eShrink10] * (-5) :=
  ⟨by norm_num, by norm_num, by norm_num [eShrink10],
   shrink_distribution_formula (-5) 1 [eShrink10] 0 (by norm_num) (by norm_num)
     (by norm_num [eShrink10])⟩

/-! ## C9

`wrapBreaks` instruments the §9.3.5 loop of the source: it walks the
children with exactly the loop state relevant to the overflow rule (the
current line) and records the index of every child in front of which the
non-forced break of the source fires
(`line.mainSize > 0 && line.mainSize+child.flexBaseSize > containerMainSize`).
`claimBreaks` records the indices the claim asks for (current line
non-empty, total plus base above the container), and `amendedBreaks` the
amended rule (running total strictly positive). -/

/-- The indices of the children in front of which the non-forced break of
the §9.3.5 loop fires, with the loop state of the source (the accumulator
carries the recorded indices, the current line, and the index of the next
child). -/
def wrapBreaks (containerMainSize : ℚ) (children : List element) : List ℕ :=
  (children.foldl
    (fun (acc : List ℕ × flexLine × ℕ) child =>
      let breaks := acc.1
      let line := acc.2.1
      let i := acc.2.2
      let closed : List ℕ × flexLine :=
        if line.mainSize > 0 ∧ line.mainSize + child.flexBaseSize > containerMainSize then
          (breaks ++ [i], {})
        else (breaks, line)
      let line : flexLine :=
        { mainSize := closed.2.mainSize + child.flexBaseSize,
          child := closed.2.child ++ [child] }
      if breakAfter child.n then (closed.1, {}, i + 1) else (closed.1, line, i + 1))
    ([], {}, 0)).1

/-- The indices of the non-forced breaks as the claim words the rule: the
current line already has at least one child and its total flex base size
plus the base of the next child exceeds the container extent. -/
def claimBreaks (containerMainSize : ℚ) (children : List element) : List ℕ :=
  (children.foldl
    (fun (acc : List ℕ × List element × ℕ) child =>
      let breaks := acc.1
      let line := acc.2.1
      let i := acc.2.2
      let closed : List ℕ × List element :=
        if line ≠ [] ∧ sumBases line + child.flexBaseSize > containerMainSize then
          (breaks ++ [i], [])
        else (breaks, line)
      let line := closed.2 ++ [child]
      if breakAfter child.n then (closed.1, [], i + 1) else (closed.1, line, i + 1))
    ([], [], 0)).1

/-- The indices of the non-forced breaks under the amended rule: the total
flex base size of the current line is strictly positive and adding the next
child would push it above the container extent. -/
def amendedBreaks (containerMainSize : ℚ) (children : List element) : List ℕ :=
  (children.foldl
    (fun (acc : List ℕ × List element × ℕ) child =>
      let breaks := acc.1
      let line := acc.2.1
      let i := acc.2.2
      let closed : List ℕ × List element :=
        if sumBases line > 0 ∧ sumBases line + child.flexBaseSize > containerMainSize then
          (breaks ++ [i], [])
        else (breaks, line)
      let line := closed.2 ++ [child]
      if breakAfter child.n then (closed.1, [], i + 1) else (closed.1, line, i + 1))
    ([], [], 0)).1

lemma sumBases_nil : sumBases [] = 0 := by simp [sumBases]

lemma sumBases_append (l : List element) (c : element) :
    sumBases (l ++ [c]) = sumBases l + c.flexBaseSize := by
  simp [sumBases]

lemma wrapBreaks_eq_amended_aux (containerMainSize : ℚ) :
    ∀ (children : List element) (breaks : List ℕ) (line : flexLine)
      (lc : List element) (i : ℕ), line.mainSize = sumBases lc →
      (children.foldl
        (fun (acc : List ℕ × flexLine × ℕ) child =>
          let breaks := acc.1
          let line := acc.2.1
          let i := acc.2.2
          let closed : List ℕ × flexLine :=
            if line.mainSize > 0 ∧
                line.mainSize + child.flexBaseSize > containerMainSize then
              (breaks ++ [i], {})
            else (breaks, line)
          let line : flexLine :=
            { mainSize := closed.2.mainSize + child.flexBaseSize,
              child := closed.2.child ++ [child] }
          if breakAfter child.n then (closed.1, {}, i + 1) else (closed.1, line, i + 1))
        (breaks, line, i)).1 =
      (children.foldl
        (fun (acc : List ℕ × List element × ℕ) child =>
          let breaks := acc.1
          let line := acc.2.1
          let i := acc.2.2
          let closed : List ℕ × List element :=
            if sumBases line > 0 ∧
                sumBases line + child.flexBaseSize > containerMainSize then
              (breaks ++ [i], [])
            else (breaks, line)
          let line := closed.2 ++ [child]
          if breakAfter child.n then (closed.1, [], i + 1) else (closed.1, line, i + 1))
        (breaks, lc, i)).1 := by
  intro children
  induction children with
  | nil => intro breaks line lc i h; rfl
  | cons c rest ih =>
    intro breaks line lc i h
    simp only [List.foldl_cons]
    by_cases hbr : line.mainSize > 0 ∧ line.mainSize + c.flexBaseSize > containerMainSize
    · have hbr2 : sumBases lc > 0 ∧ sumBases lc + c.flexBaseSize > containerMainSize := by
        rw [← h]; exact hbr
      rw [if_pos hbr, if_pos hbr2]
      by_cases hba : breakAfter c.n
      · simp only [if_pos hba]
        exact ih _ _ _ _ (by simp [sumBases])
      · simp only [if_neg hba]
        exact ih _ _ _ _ (by simp [sumBases])
    · have hbr2 : ¬ (sumBases lc > 0 ∧ sumBases lc + c.flexBaseSize > containerMainSize) := by
        rw [← h]; exact hbr
      rw [if_neg hbr, if_neg hbr2]
      by_cases hba : breakAfter c.n
      · simp only [if_pos hba]
        exact ih _ _ _ _ (by simp [sumBases])
      · simp only [if_neg hba]
        exact ih _ _ _ _ (by simp [sumBases_append, h])

/-- C9, amended: confirmed.  For every container extent and child sequence
the non-forced breaks of the §9.3.5 loop fire exactly where the amended
rule places them: in front of a child if and only if the running flex base
total of the current line is strictly positive and adding the child would
push it above the container extent. -/
theorem wrap_break_iff_positive_running_total (containerMainSize : ℚ)
    (children : List element) :
    wrapBreaks containerMainSize children = amendedBreaks containerMainSize children := by
  unfold wrapBreaks amendedBreaks
  exact wrapBreaks_eq_amended_aux containerMainSize children [] {} [] 0 (by simp [sumBases_nil])

/-- A child of flex base size 0. -/
def eZero : element := { n := { MeasuredSize := (0, 0) }, flexBaseSize := 0 }

/-- A child of flex base size 200 (no layout data). -/
def e200 : element := { n := { MeasuredSize := (200, 200) }, flexBaseSize := 200 }

/-- C9 as stated: refuted on the code.  In a container of extent 100, a
line holding only the zero-base first child counts as non-empty for the
claim, so the claim places a break in front of the 200-base second child
(index 1); the code guards on `line.mainSize > 0`, which is false for the
zero-base line, and fires no break at all. -/
theorem wrap_break_zero_base_counterexample :
    wrapBreaks 100 [eZero, e200] = [] ∧ claimBreaks 100 [eZero, e200] = [1] := by
  constructor
  · norm_num [wrapBreaks, breakAfter, eZero, e200]
  · norm_num [claimBreaks, breakAfter, sumBases, eZero, e200]

/-! ## C6 -/

lemma goInt_intCast (m : ℤ) : goInt ((m : ℚ)) = m := by
  simp [goInt, Rat.num_intCast, Rat.den_intCast]

lemma setMainSizes_aux (cs : List element) :
    ∀ (done : List (ℤ × ℤ)) (off : ℤ),
      (cs.foldl
        (fun (acc : List (ℤ × ℤ) × ℤ) child =>
          let e := acc.2 + goInt child.mainSize
          (acc.1 ++ [(acc.2, e)], e))
        (done, off)).1
      = done ++ contiguousFrom off (cs.map (fun c => goInt c.mainSize)) := by
  induction cs with
  | nil => intro done off; simp [contiguousFrom]
  | cons c rest ih =>
    intro done off
    simp only [List.foldl_cons, List.map_cons, contiguousFrom, ih]
    simp

lemma setMainSizes_eq (cs : List element) :
    setMainSizes cs = contiguousFrom 0 (cs.map (fun c => goInt c.mainSize)) := by
  simpa [setMainSizes] using setMainSizes_aux cs [] 0

lemma flexBaseSize_no_layout (dir : ContainerDirection) (n : Node)
    (h : n.LayoutData = none) :
    flexBaseSize dir n = Except.ok (mainSize dir n.MeasuredSize) := by
  norm_num [flexBaseSize, h, Auto, Content, Definite]

lemma mkElements_no_layout (dir : ContainerDirection) :
    ∀ ns : List Node, (∀ n ∈ ns, n.LayoutData = none) →
      mkElements dir ns = Except.ok (ns.map (fun n =>
        ({ n := n, flexBaseSize := ((mainSize dir n.MeasuredSize : ℤ) : ℚ) } : element))) := by
  intro ns
  induction ns with
  | nil => intro _; rfl
  | cons c rest ih =>
    intro h
    have hc := flexBaseSize_no_layout dir c (h c (by simp))
    have hr := ih (fun n hn => h n (by simp [hn]))
    rw [mkElements, hc, hr]
    simp

/-- C6, amended: confirmed.  In a `NoWrap` container whose main-axis extent
is positive, children carrying no flex descriptor keep their measured main
size and are placed contiguously from offset 0 in source order: the layout
is exactly `contiguousFrom 0` of the measured main sizes (so each child
occupies `[off, off + measured)` and the next child starts where the
previous one ends). -/
theorem noflex_identity_positive_container (dir : ContainerDirection)
    (size : ℤ × ℤ) (fuel : ℕ) (ns : List Node)
    (hpos : 0 < mainSize dir size)
    (hnd : ∀ n ∈ ns, n.LayoutData = none) :
    Layout dir .NoWrap size (fuel + 1) ns =
      Except.ok [contiguousFrom 0 (ns.map (fun n => mainSize dir n.MeasuredSize))] := by
  have hmk := mkElements_no_layout dir ns hnd
  have hg : lineGrow ((mainSize dir size : ℤ) : ℚ)
      { mainSize := 0,
        child := ns.map (fun n =>
          ({ n := n, flexBaseSize := ((mainSize dir n.MeasuredSize : ℤ) : ℚ) } : element)) } = true := by
    simp only [lineGrow, decide_eq_true_eq]
    exact_mod_cast hpos
  have hmapfz : (ns.map (fun n =>
      ({ n := n, flexBaseSize := ((mainSize dir n.MeasuredSize : ℤ) : ℚ) } : element))).map
        (freezeInflexible dir true)
      = ns.map (fun n =>
        ({ n := n, flexBaseSize := ((mainSize dir n.MeasuredSize : ℤ) : ℚ),
           frozen := true, unclamped := 0,
           mainSize := ((mainSize dir n.MeasuredSize : ℤ) : ℚ) } : element)) := by
    rw [List.map_map]
    apply List.map_congr_left
    intro n hn
    have h0 : growFactor n = 0 := by simp [growFactor, hnd n hn]
    simp [freezeInflexible, h0]
  have haf : allFrozen (ns.map (fun n =>
      ({ n := n, flexBaseSize := ((mainSize dir n.MeasuredSize : ℤ) : ℚ),
         frozen := true, unclamped := 0,
         mainSize := ((mainSize dir n.MeasuredSize : ℤ) : ℚ) } : element))) = true := by
    simp [allFrozen, List.all_eq_true]
  have hres : resolveLine dir ((mainSize dir size : ℤ) : ℚ) (fuel + 1)
      { mainSize := 0,
        child := ns.map (fun n =>
          ({ n := n, flexBaseSize := ((mainSize dir n.MeasuredSize : ℤ) : ℚ) } : element)) }
      = some (ns.map (fun n =>
        ({ n := n, flexBaseSize := ((mainSize dir n.MeasuredSize : ℤ) : ℚ),
           frozen := true, unclamped := 0,
           mainSize := ((mainSize dir n.MeasuredSize : ℤ) : ℚ) } : element))) := by
    simp only [resolveLine, hg, hmapfz, runLoop, haf, if_true]
  have hsm : (ns.map (fun n =>
      ({ n := n, flexBaseSize := ((mainSize dir n.MeasuredSize : ℤ) : ℚ),
         frozen := true, unclamped := 0,
         mainSize := ((mainSize dir n.MeasuredSize : ℤ) : ℚ) } : element))).map
        (fun c => goInt c.mainSize)
      = ns.map (fun n => mainSize dir n.MeasuredSize) := by
    rw [List.map_map]
    apply List.map_congr_left
    intro n hn
    simp [goInt_intCast]
  rw [Layout, hmk]
  simp only [collectLines, layoutLines, layoutLine, hres, setMainSizes_eq, hsm]

/-- C6 as stated: refuted on the code at a container of main extent 0.  The
single child has measured main size 5 and no flex descriptor, yet the
resolved line is in shrinking mode (0 < 0 is false), the child is not
frozen by §9.7.2, the negative free space inflates it to 10, and the final
rectangle is [0, 10): the final main size differs from the measured 5. -/
theorem noflex_identity_fails_zero_container :
    Layout .Row .NoWrap (0, 0) 2 [{ MeasuredSize := (5, 5) }] =
      Except.ok [[(0, 10)]] ∧
    mainSize .Row ((5 : ℤ), (5 : ℤ)) = 5 := by
  constructor
  · norm_num [Layout, mkElements, flexBaseSize, Auto, Content, Definite, mainSize,
      collectLines, layoutLines, layoutLine, resolveLine, lineGrow, freezeInflexible,
      growFactor, shrinkFactor, initFreeSpaceOf, runLoop, allFrozen, flexStep,
      remFreeAndFactor, adjustRemFree, distribute, distributeGrow, distributeShrink,
      clampViolations, freezeOverFlexed, sumClampDiff, setMainSizes, goInt]
  · rfl

/-- Witness for the amended C6 on the first `layoutTests` entry: container
main extent 350, three children of measured main size 100 and no layout
data. -/
theorem noflex_identity_witness :
    (0 < mainSize .Row (350, 100)) ∧
    Layout .Row .NoWrap (350, 100) 1
      [{ MeasuredSize := (100, 100) }, { MeasuredSize := (100, 100) },
       { MeasuredSize := (100, 100) }] =
      Except.ok [contiguousFrom 0
        ([({ MeasuredSize := (100, 100) } : Node), { MeasuredSize := (100, 100) },
          { MeasuredSize := (100, 100) }].map
          (fun n => mainSize .Row n.MeasuredSize))] :=
  ⟨by norm_num [mainSize],
   noflex_identity_positive_container .Row (350, 100) 0
     [{ MeasuredSize := (100, 100) }, { MeasuredSize := (100, 100) },
      { MeasuredSize := (100, 100) }]
     (by norm_num [mainSize]) (by simp)⟩

/-! ## C10 -/

lemma initFreeSpaceOf_unfrozen (cs : List element) :
    ∀ a : ℚ, (∀ e ∈ cs, e.frozen = false) →
      initFreeSpaceOf a cs = a - sumBases cs := by
  induction cs with
  | nil => intro a _; simp [initFreeSpaceOf, sumBases]
  | cons c rest ih =>
    intro a h
    have hc := h c (by simp)
    have := ih (a - c.flexBaseSize) (fun e he => h e (by simp [he]))
    simp only [initFreeSpaceOf, List.foldl_cons, hc] at this ⊢
    rw [if_neg (by simp), this]
    simp [sumBases]
    ring

lemma remFreeAndFactor_fst_unfrozen (grow : Bool) (cs : List element) :
    ∀ a : ℚ × ℚ, (∀ e ∈ cs, e.frozen = false) →
      (cs.foldl
        (fun acc child =>
          if child.frozen then (acc.1 - child.mainSize, acc.2)
          else
            (acc.1 - child.flexBaseSize,
             acc.2 + (if grow then growFactor child.n else shrinkFactor child.n)))
        a).1 = a.1 - sumBases cs := by
  induction cs with
  | nil => intro a _; simp [sumBases]
  | cons c rest ih =>
    intro a h
    have hc := h c (by simp)
    simp only [List.foldl_cons, hc]
    rw [if_neg (by simp)]
    rw [ih _ (fun e he => h e (by simp [he]))]
    simp [sumBases]
    ring

lemma adjustRemFree_zero (f : ℚ) : adjustRemFree 0 0 f = 0 := by
  simp [adjustRemFree]

lemma distribute_zero_free (grow : Bool) (f : ℚ) (cs : List element) :
    distribute grow 0 f cs = cs := by
  simp [distribute]

lemma clampViolations_fresh (cs : List element)
    (h : ∀ e ∈ cs, e.unclamped = e.mainSize ∧ ¬ e.mainSize < 0) :
    clampViolations cs = cs := by
  have h2 : clampViolations cs = cs.map id := by
    rw [clampViolations]
    apply List.map_congr_left
    intro e he
    rcases h e he with ⟨h1, h2⟩
    by_cases hf : e.frozen
    · simp [hf]
    · rcases e with ⟨n, fbs, fz, uc, ms⟩
      simp_all
  simpa using h2

lemma sumClampDiff_balanced (cs : List element) :
    ∀ a : ℚ, (∀ e ∈ cs, e.mainSize = e.unclamped) →
      cs.foldl (fun acc child => acc + (child.mainSize - child.unclamped)) a = a := by
  induction cs with
  | nil => intro a _; rfl
  | cons c rest ih =>
    intro a h
    have hc := h c (by simp)
    simp only [List.foldl_cons, hc, sub_self, add_zero]
    exact ih a (fun e he => h e (by simp [he]))

lemma freezeOverFlexed_balanced (cs : List element)
    (h : ∀ e ∈ cs, e.mainSize = e.unclamped) :
    freezeOverFlexed cs = cs.map (fun e => { e with frozen := true }) := by
  have hz : sumClampDiff cs = 0 := sumClampDiff_balanced cs 0 h
  simp [freezeOverFlexed, hz]

lemma runLoop_freeze_all (c : ℚ) (fuel : ℕ) (cs : List element)
    (hstep : flexStep false c 0 cs = cs.map (fun e => { e with frozen := true }))
    (hunf : ∀ e ∈ cs, e.frozen = false) :
    runLoop false c 0 (fuel + 2) cs = some (cs.map (fun e => { e with frozen := true })) := by
  cases cs with
  | nil => simp [runLoop, allFrozen]
  | cons x xs =>
    have hnf : allFrozen (x :: xs) = false := by
      simp [allFrozen, hunf x (by simp)]
    rw [runLoop, hnf]
    simp only [Bool.false_eq_true, if_false, hstep]
    rw [runLoop]
    have haf : allFrozen ((x :: xs).map (fun e => { e with frozen := true })) = true := by
      simp [allFrozen]
    rw [haf]
    simp

lemma contiguousFrom_zeros (l : List element) :
    ∀ off : ℤ, contiguousFrom off (l.map (fun _ => (0 : ℤ))) =
      l.map (fun _ => (off, off)) := by
  induction l with
  | nil => intro off; simp [contiguousFrom]
  | cons x xs ih =>
    intro off
    simp only [List.map_cons, contiguousFrom, add_zero]
    rw [ih]

lemma goInt_zero : goInt 0 = 0 := by
  have := goInt_intCast 0
  simpa using this

/-- C10: confirmed.  When the total flex base size of a line exactly equals
the container main extent and no child is frozen by the §9.7.2 initial pass
(every child has a nonzero shrink factor and a flex base size at least its
measured main size), the §9.7.4 loop runs with a remaining free space of 0,
skips the distribution, leaves every (never initialised) main size at 0,
computes a clamp-difference sum of 0 and freezes every child at that value:
the resolution returns every child frozen at main size 0 and the positioning
gives each of them the empty interval [0, 0). -/
theorem equal_sum_line_collapses_to_zero (dir : ContainerDirection)
    (containerMainSize : ℚ) (fuel : ℕ) (line : flexLine)
    (hline : line.mainSize = containerMainSize)
    (hsum : sumBases line.child = containerMainSize)
    (hfresh : ∀ e ∈ line.child, e.frozen = false ∧ e.unclamped = 0 ∧ e.mainSize = 0)
    (hflex : ∀ e ∈ line.child, shrinkFactor e.n ≠ 0 ∧
      ((mainSize dir e.n.MeasuredSize : ℤ) : ℚ) ≤ e.flexBaseSize) :
    resolveLine dir containerMainSize (fuel + 2) line =
      some (line.child.map (fun e => { e with frozen := true })) ∧
    layoutLine dir containerMainSize (fuel + 2) line =
      Except.ok (line.child.map (fun _ => ((0 : ℤ), (0 : ℤ)))) := by
  have hg : lineGrow containerMainSize line = false := by
    simp [lineGrow, hline]
  have hfz : line.child.map (freezeInflexible dir false) = line.child := by
    have hid : line.child.map (freezeInflexible dir false) = line.child.map id := by
      apply List.map_congr_left
      intro e he
      rcases hflex e he with ⟨h1, h2⟩
      simp [freezeInflexible, h1, not_lt.mpr h2]
    simpa using hid
  have hunf : ∀ e ∈ line.child, e.frozen = false := fun e he => (hfresh e he).1
  have hif : initFreeSpaceOf containerMainSize line.child = 0 := by
    rw [initFreeSpaceOf_unfrozen line.child containerMainSize hunf, hsum, sub_self]
  have hstep : flexStep false containerMainSize 0 line.child =
      line.child.map (fun e => { e with frozen := true }) := by
    have h1 : (remFreeAndFactor false containerMainSize line.child).1 = 0 := by
      rw [remFreeAndFactor, remFreeAndFactor_fst_unfrozen false line.child
        (containerMainSize, 0) hunf]
      simp [hsum]
    simp only [flexStep, h1, adjustRemFree_zero, distribute_zero_free]
    rw [clampViolations_fresh line.child (fun e he => by
      rcases hfresh e he with ⟨_, h2, h3⟩
      constructor
      · rw [h2, h3]
      · rw [h3]; norm_num)]
    exact freezeOverFlexed_balanced line.child (fun e he => by
      rcases hfresh e he with ⟨_, h2, h3⟩
      rw [h2, h3])
  have hrl : runLoop false containerMainSize 0 (fuel + 2) line.child =
      some (line.child.map (fun e => { e with frozen := true })) :=
    runLoop_freeze_all containerMainSize fuel line.child hstep hunf
  have hres : resolveLine dir containerMainSize (fuel + 2) line =
      some (line.child.map (fun e => { e with frozen := true })) := by
    simp only [resolveLine, hg, hfz, hif]
    exact hrl
  refine ⟨hres, ?_⟩
  simp only [layoutLine, hres]
  rw [setMainSizes_eq]
  have hzs : (line.child.map (fun e => ({ e with frozen := true } : element))).map
      (fun c => goInt c.mainSize) = line.child.map (fun _ => (0 : ℤ)) := by
    rw [List.map_map]
    apply List.map_congr_left
    intro e he
    have h3 := (hfresh e he).2.2
    simp [h3, goInt_zero]
  rw [hzs, contiguousFrom_zeros line.child 0]

/-- Witness for C10: a line of two children of flex base size 50 (measured
main size 50, default shrink factor 1) in a container of main extent
100. -/
theorem equal_sum_line_collapses_witness :
    resolveLine .Row 100 2 { mainSize := 100, child := [eWrap50, eWrap50] } =
      some ([eWrap50, eWrap50].map (fun e => { e with frozen := true })) ∧
    layoutLine .Row 100 2 { mainSize := 100, child := [eWrap50, eWrap50] } =
      Except.ok ([eWrap50, eWrap50].map (fun _ => ((0 : ℤ), (0 : ℤ)))) :=
  equal_sum_line_collapses_to_zero .Row 100 0
    { mainSize := 100, child := [eWrap50, eWrap50] }
    rfl
    (by norm_num [sumBases, eWrap50])
    (by norm_num [eWrap50])
    (by norm_num [eWrap50, shrinkFactor, mainSize])

end Flex
